import Mathlib

/-! Formal model of the `clivo` interactive command line interface
(source file `clyo/cli.py`, class `CommandLineInterface`), embedded
shallowly:

* a Python dict becomes an insertion-ordered association list
  (`dictGet?`, `dictInsert`, `dictRemove` mirror `d[k]`, `d[k] = v` and
  `d.pop(k)`);
* Python character slicing `s[:n]` / `s[n:]` becomes `strTake` /
  `strDrop`;
* a managed object is an opaque record (`Obj`): its attribute values,
  an `on_stop` capability flag and a counter of `on_stop` calls;
* the dynamic `exec` the class uses for assignment runs arbitrary
  operator-supplied statements, so its behaviour is a
  host-and-operator-determined transformation of the whole
  managed-objects dict that may also raise (`ExecSem`), by which the
  dispatcher is parameterised; `atomicExec` is the special case of a
  benign single-expression value text;
* an uncaught Python exception is a `none` / `crash` result;
* the state mutated by the class (its `self` fields, the managed
  objects, the event signals) is threaded explicitly as `CLIState`. -/

namespace Clyo

/-- Python dict lookup `d[k]`, as an `Option` (`none` is a `KeyError`). -/
def dictGet? {α : Type} (d : List (String × α)) (k : String) : Option α :=
  match d with
  | [] => none
  | (k0, v) :: rest => if k0 = k then some v else dictGet? rest k

/-- Python dict assignment `d[k] = v`: updates the entry in place when
the key is present (keeping its position), otherwise appends it. -/
def dictInsert {α : Type} (d : List (String × α)) (k : String) (v : α) :
    List (String × α) :=
  match d with
  | [] => [(k, v)]
  | (k0, v0) :: rest =>
    if k0 = k then (k0, v) :: rest else (k0, v0) :: dictInsert rest k v

/-- Removal part of Python `d.pop(k)`: drops the first entry with key `k`. -/
def dictRemove {α : Type} (d : List (String × α)) (k : String) :
    List (String × α) :=
  match d with
  | [] => []
  | (k0, v0) :: rest =>
    if k0 = k then rest else (k0, v0) :: dictRemove rest k

/-- Python slice `s[:n]` (character based, clipped at the end). -/
def strTake (s : String) (n : Nat) : String := String.mk (s.data.take n)

/-- Python slice `s[n:]` (character based, clipped at the end). -/
def strDrop (s : String) (n : Nat) : String := String.mk (s.data.drop n)

/-- Python `s.ljust(w, '-')`. -/
def ljustDash (s : String) (w : Nat) : String :=
  s ++ String.mk (List.replicate (w - s.length) (Char.ofNat 45))

/-- Python `s.capitalize()` (first character upper-cased, rest lower-cased). -/
def pyCapitalize (s : String) : String :=
  match s.data with
  | [] => ""
  | c :: cs => String.mk (c.toUpper :: cs.map Char.toLower)

/-- The single-quote character as a string, for rendering the error
message printed by `_set_property`. -/
def sq : String := String.mk [Char.ofNat 39]

/-- Specification of one controllable property: the `repr` and
`commands` entries of the per-property dict given to the constructor. -/
structure PptySpec where
  repr : String
  commands : List String
deriving DecidableEq

/-- Value of one entry of the events dict: the underlying
`threading.Event` (`signal` is whether it has been set) and the
`commands` entry. -/
structure EventData where
  signal : Bool
  commands : List String
deriving DecidableEq

/-- A managed object. `attrs` holds its attribute values (keyed by the
property name, which may be dotted). `hasOnStop` records whether the
object defines `on_stop`; `stopCount` counts the calls made to it. -/
structure Obj where
  attrs : List (String × Int)
  hasOnStop : Bool
  stopCount : Nat
deriving DecidableEq

/-- State of a `CommandLineInterface` (its `self` fields) together with
the managed objects and event signals it references. -/
structure CLIState where
  objects : List (String × Obj)
  properties : List (String × PptySpec)
  events : List (String × EventData)
  stop_signal : Bool
  stop_commands : List String
  event_commands : List (String × String)
  property_commands : List (String × String)
  max_name_length : Nat
deriving DecidableEq

/-- Which branch of `run` handled an input line. -/
inductive Outcome where
  | stopped : Outcome
  | eventTriggered : String → Outcome
  | inquired : String → Outcome
  | bulkSet : String → Outcome
  | targetedSet : String → String → Outcome
  | unrecognized : Outcome
deriving DecidableEq

/-- Result of processing one input line: the branch completes (`ok`,
with the printed lines and the branch taken), or a Python exception
escapes (`crash`, with the state and the prints made up to the raise). -/
inductive DispatchResult where
  | ok : CLIState → List String → Outcome → DispatchResult
  | crash : CLIState → List String → DispatchResult
deriving DecidableEq

/-- Result of `run` fed a finite list of input lines: the loop exits
through its `while` condition (`finished`, with the lines left unread),
consumes every line and blocks for more (`starved`), or dies on an
uncaught exception (`crashed`, with the lines left unread). -/
inductive RunResult where
  | finished : CLIState → List String → List String → RunResult
  | starved : CLIState → List String → RunResult
  | crashed : CLIState → List String → List String → RunResult
deriving DecidableEq

/-- `CommandLineInterface._get_commands` (cli.py lines 106 to 130): for
each entry of the input dict, for each of its command names, assign
`commands[command_name] = name`. The argument is the input dict reduced
to its `commands` column. -/
def get_commands (input_data : List (String × List String)) :
    List (String × String) :=
  input_data.foldl
    (fun commands p => p.2.foldl (fun c cmd => dictInsert c cmd p.1) commands)
    []

/-- Default stop commands created when the host supplies no `stop`
event (cli.py line 94). -/
def defaultStopCommands : List String := ["q", "Q", "quit"]

/-- Tail of `CommandLineInterface.__init__` once the `stop` entry has
been resolved: builds the two command dicts and computes
`max_name_length`; `max` of an empty sequence raises `ValueError`
(cli.py line 104), so an empty objects dict yields `none`. -/
def initCore (objects : List (String × Obj))
    (properties : List (String × PptySpec))
    (events2 : List (String × EventData))
    (stop_signal : Bool) (stop_commands : List String) : Option CLIState :=
  match objects with
  | [] => none
  | _ :: _ =>
    some { objects := objects
           properties := properties
           events := events2
           stop_signal := stop_signal
           stop_commands := stop_commands
           event_commands :=
             get_commands (events2.map (fun p => (p.1, p.2.commands)))
           property_commands :=
             get_commands (properties.map (fun p => (p.1, p.2.commands)))
           max_name_length :=
             (objects.map (fun p => p.1.length)).foldl Nat.max 0 }

/-- `CommandLineInterface.__init__` (cli.py lines 85 to 104). `none`
models the constructor raising. The returned state's `events` field is
the host's events dict after the `pop('stop')`. -/
def init (objects : List (String × Obj))
    (properties : List (String × PptySpec))
    (events : List (String × EventData)) : Option CLIState :=
  match dictGet? events "stop" with
  | some stop_dict =>
    initCore objects properties (dictRemove events "stop")
      stop_dict.signal stop_dict.commands
  | none => initCore objects properties events false defaultStopCommands

/-- Update of one attribute of one object, as performed by an ordinary
attribute assignment `obj.{ppty} = v`. -/
def setAttr (obj : Obj) (ppty : String) (v : Int) : Obj :=
  { obj with attrs := dictInsert obj.attrs ppty v }

/-- Replacement of one managed object in the state: the in-place
mutation of the object bound to `self.objects[object_name]`. -/
def setObjState (st : CLIState) (object_name : String) (obj : Obj) :
    CLIState :=
  { st with objects := dictInsert st.objects object_name obj }

/-- Observable result of one `exec(f'obj.{ppty} = {value}')` call
(cli.py line 138): the managed objects after the statements in `value`
ran — including any partial or cross-object effects they had — and
whether an exception escaped the `exec`. When `raised` is true,
`objects` holds the mutations performed before the raise (Python does
not roll them back). -/
structure ExecOutcome where
  objects : List (String × Obj)
  raised : Bool
deriving DecidableEq

/-- Semantics of the `exec` call of `_set_property`. The raw value text
is arbitrary operator-supplied Python source spliced after
`obj.{ppty} = `, compiled with the target object (`obj`) and the CLI
instance (`self`, hence every managed object) in scope, so its
behaviour is a host-and-operator-determined transformation of the whole
managed-objects dict that may also raise: given the property name, the
target object's name, the raw value text and the current objects dict,
it yields the resulting `ExecOutcome`. The dispatcher is parameterised
by this semantics. -/
def ExecSem : Type :=
  String → String → String → List (String × Obj) → ExecOutcome

/-- Exec semantics of a benign, single-expression value text: per
property, target object and text, `accept` returns the converted value
when the text converts and the target accepts the assignment (then
exactly the one attribute of the one target object is assigned), and
`none` when the statement raises without side effects. Multi-statement
operator texts need not behave like this, so equality with an
`atomicExec` is an assumption about the value text, not a property of
the code. -/
def atomicExec (accept : String → String → String → Option Int) : ExecSem :=
  fun ppty object_name value objects =>
    match accept ppty object_name value with
    | some w =>
      match dictGet? objects object_name with
      | some obj =>
        { objects := dictInsert objects object_name (setAttr obj ppty w),
          raised := false }
      | none => { objects := objects, raised := true }
    | none => { objects := objects, raised := true }

/-- `CommandLineInterface._set_property` (cli.py lines 132 to 142).
`none` models an uncaught exception (a `KeyError` from one of the dict
lookups); the try/except around the `exec` turns a raise inside the
`exec` into a printed failure message, keeping whatever mutations the
`exec` performed before raising. -/
def set_property (sem : ExecSem) (st : CLIState)
    (ppty_cmd object_name value : String) : Option (CLIState × String) :=
  match dictGet? st.objects object_name with
  | none => none
  | some _obj =>
    match dictGet? st.property_commands ppty_cmd with
    | none => none
    | some ppty =>
      match dictGet? st.properties ppty with
      | none => none
      | some pspec =>
        let r := sem ppty object_name value st.objects
        if r.raised then
          some ({ st with objects := r.objects },
            sq ++ value ++ sq ++ " not a valid " ++ pspec.repr ++
              " (" ++ ppty ++ ")")
        else
          some ({ st with objects := r.objects },
            "New " ++ pspec.repr ++ " for " ++ object_name ++ ": " ++ value)

/-- `CommandLineInterface._get_property` (cli.py lines 144 to 152).
`none` models the `exec` raising (an `AttributeError` for a missing
attribute) or a `KeyError` from the dict lookups; there is no
try/except here, so the caller propagates it. -/
def get_property (st : CLIState) (ppty_cmd object_name : String) :
    Option Int :=
  match dictGet? st.objects object_name with
  | none => none
  | some obj =>
    match dictGet? st.property_commands ppty_cmd with
    | none => none
    | some ppty => dictGet? obj.attrs ppty

/-- Object loop of `_print_properties` (cli.py lines 161 to 165): one
line per object, in the supplied order; a raising read aborts the whole
loop (`none`). -/
def readAll (st : CLIState) (ppty_cmd : String) :
    List String → Option (List String)
  | [] => some []
  | object_name :: rest =>
    match get_property st ppty_cmd object_name with
    | none => none
    | some value =>
      match readAll st ppty_cmd rest with
      | none => none
      | some msgs =>
        some ((ljustDash object_name (st.max_name_length + 3) ++
          toString value) :: msgs)

/-- `CommandLineInterface._print_properties` (cli.py lines 154 to 167):
the single `print` of the joined per-object lines, or `none` when a
read raised. -/
def print_properties (st : CLIState) (ppty_cmd : String) : Option String :=
  match dictGet? st.property_commands ppty_cmd with
  | none => none
  | some ppty =>
    match dictGet? st.properties ppty with
    | none => none
    | some pspec =>
      match readAll st ppty_cmd (st.objects.map (fun p => p.1)) with
      | none => none
      | some msgs => some (String.intercalate "\n" (pspec.repr :: msgs))

/-- Object loop of the stop branch (cli.py lines 185 to 189): call each
object's `on_stop` when it defines one, swallowing the `AttributeError`
of objects that lack it. -/
def onStopAll (objs : List (String × Obj)) : List (String × Obj) :=
  objs.map (fun p =>
    (p.1, if p.2.hasOnStop
          then { p.2 with stopCount := p.2.stopCount + 1 }
          else p.2))

/-- State after the stop branch of `run` (cli.py lines 183 to 190):
every object's optional `on_stop` hook has run once and the stop event
is set. -/
def stopState (st : CLIState) : CLIState :=
  { st with objects := onStopAll st.objects, stop_signal := true }

/-- Inner object-name scan of the targeted-set branch (cli.py lines 222
to 230): the first object whose specific command
`ppty_cmd + '-' + object_name` equals the corresponding initial slice
of the input line, if any. -/
def findTarget (command ppty_cmd : String) : List String → Option String
  | [] => none
  | object_name :: rest =>
    let specific_cmd := ppty_cmd ++ "-" ++ object_name
    if strTake command specific_cmd.length = specific_cmd then
      some object_name
    else findTarget command ppty_cmd rest

/-- Bulk-set object loop (cli.py lines 216 to 217): apply
`_set_property` with the same value to every object in supplied order,
threading the state; the flag records whether a call raised (which
aborts the loop at that object). -/
def setAll (sem : ExecSem) (ppty_cmd value : String) :
    List String → CLIState → CLIState × List String × Bool
  | [], st => (st, [], false)
  | object_name :: rest, st =>
    match set_property sem st ppty_cmd object_name value with
    | none => (st, [], true)
    | some (st1, msg) =>
      match setAll sem ppty_cmd value rest st1 with
      | (st2, msgs, c) => (st2, msg :: msgs, c)

/-- Property-command loop of `run` (cli.py lines 202 to 235), including
the for/else `Unknown Command` fallthrough. The last argument is the
iteration (insertion) order of `property_commands`. -/
def propertyLoop (sem : ExecSem) (st : CLIState) (command : String) :
    List String → DispatchResult
  | [] => DispatchResult.ok st ["Unknown Command. "] Outcome.unrecognized
  | ppty_cmd :: rest =>
    if command = ppty_cmd then
      match print_properties st ppty_cmd with
      | none => DispatchResult.crash st []
      | some msg => DispatchResult.ok st [msg] (Outcome.inquired ppty_cmd)
    else if strTake command (ppty_cmd.length + 1) = ppty_cmd ++ " " then
      match setAll sem ppty_cmd (strDrop command (ppty_cmd.length + 1))
          (st.objects.map (fun p => p.1)) st with
      | (st1, msgs, crashed) =>
        if crashed then DispatchResult.crash st1 msgs
        else DispatchResult.ok st1 msgs (Outcome.bulkSet ppty_cmd)
    else
      match findTarget command ppty_cmd (st.objects.map (fun p => p.1)) with
      | some object_name =>
        match set_property sem st ppty_cmd object_name
            (strDrop command ((ppty_cmd ++ "-" ++ object_name).length + 1)) with
        | none => DispatchResult.crash st []
        | some (st1, msg) =>
          DispatchResult.ok st1 [msg]
            (Outcome.targetedSet ppty_cmd object_name)
      | none => propertyLoop sem st command rest

/-- State after the event branch of `run` (cli.py lines 194 to 198):
`self.events[event_name]['event'].set()` on the entry `d` of
`event_name`. -/
def eventSet (st : CLIState) (event_name : String) (d : EventData) : CLIState :=
  { st with events :=
      dictInsert st.events event_name ({ d with signal := true }) }

/-- One iteration body of `run` after the `input()` call (cli.py lines
183 to 235): stop check, then event check, then the property loop. -/
def dispatchLine (sem : ExecSem) (st : CLIState) (command : String) :
    DispatchResult :=
  if command ∈ st.stop_commands then
    DispatchResult.ok (stopState st) ["Stopping recording ..."]
      Outcome.stopped
  else
    match dictGet? st.event_commands command with
    | some event_name =>
      match dictGet? st.events event_name with
      | none =>
        DispatchResult.crash st [pyCapitalize event_name ++ " event requested"]
      | some d =>
        DispatchResult.ok (eventSet st event_name d)
          [pyCapitalize event_name ++ " event requested"]
          (Outcome.eventTriggered event_name)
    | none =>
      propertyLoop sem st command (st.property_commands.map (fun p => p.1))

/-- Prompt printed by the `input(...)` call (cli.py lines 178 to 179). -/
def prompt (st : CLIState) : String :=
  "Type command (to stop, type " ++
    String.intercalate " or " st.stop_commands ++ "): "

/-- `CommandLineInterface.run` (cli.py lines 173 to 235), fed a finite
list of input lines in place of the interactive standard input. -/
def run (sem : ExecSem) (st : CLIState) (inputs : List String) : RunResult :=
  if st.stop_signal then RunResult.finished st [] inputs
  else
    match inputs with
    | [] => RunResult.starved st []
    | line :: rest =>
      match dispatchLine sem st line with
      | DispatchResult.crash st1 out =>
        RunResult.crashed st1 (prompt st :: out) rest
      | DispatchResult.ok st1 out _ =>
        match run sem st1 rest with
        | RunResult.finished st2 out2 unread =>
          RunResult.finished st2 (prompt st :: (out ++ out2)) unread
        | RunResult.starved st2 out2 =>
          RunResult.starved st2 (prompt st :: (out ++ out2))
        | RunResult.crashed st2 out2 unread =>
          RunResult.crashed st2 (prompt st :: (out ++ out2)) unread

/-- Name of the last entry of `input_data` whose command list contains
`cmd`: in `_get_commands` its assignment `commands[command_name] = name`
is the one executed last for that token, so it is the mapping that
survives. -/
def lastOwner (input_data : List (String × List String)) (cmd : String) :
    Option String :=
  match input_data with
  | [] => none
  | (name, cmds) :: rest =>
    match lastOwner rest cmd with
    | some n => some n
    | none => if cmd ∈ cmds then some name else none

/-! Basic lemmas about the string and dict models. -/

theorem strTake_append (a b : String) : strTake (a ++ b) a.length = a := by
  show String.mk ((a.data ++ b.data).take a.data.length) = a
  rw [List.take_left]

theorem strDrop_append (a b : String) : strDrop (a ++ b) a.length = b := by
  show String.mk ((a.data ++ b.data).drop a.data.length) = b
  rw [List.drop_left]

theorem strTake_sep (pc v : String) :
    strTake (pc ++ " " ++ v) (pc.length + 1) = pc ++ " " := by
  have h1 : (pc ++ " ").length = pc.length + 1 := by
    rw [String.length_append]; rfl
  rw [← h1, strTake_append]

theorem strDrop_sep (pc v : String) :
    strDrop (pc ++ " " ++ v) (pc.length + 1) = v := by
  have h1 : (pc ++ " ").length = pc.length + 1 := by
    rw [String.length_append]; rfl
  rw [← h1, strDrop_append]

theorem append_sep_ne (pc v : String) : pc ++ " " ++ v ≠ pc := by
  intro h
  have hl := congrArg String.length h
  rw [String.length_append, String.length_append] at hl
  have hsp : (" " : String).length = 1 := rfl
  rw [hsp] at hl
  omega

theorem dictGet?_insert {α : Type} (d : List (String × α)) (k k' : String)
    (v : α) :
    dictGet? (dictInsert d k v) k' = if k = k' then some v else dictGet? d k' := by
  induction d with
  | nil => simp [dictGet?, dictInsert]
  | cons p rest ih =>
    obtain ⟨k0, v0⟩ := p
    by_cases h0 : k0 = k
    · subst h0
      by_cases h1 : k0 = k'
      · subst h1; simp [dictGet?, dictInsert]
      · simp [dictGet?, dictInsert, h1]
    · by_cases h1 : k0 = k'
      · subst h1
        simp [dictGet?, dictInsert, h0, Ne.symm h0]
      · simp [dictGet?, dictInsert, h0, h1, ih]

theorem dictGet?_remove_ne {α : Type} (d : List (String × α)) (k k' : String)
    (h : k' ≠ k) : dictGet? (dictRemove d k) k' = dictGet? d k' := by
  induction d with
  | nil => rfl
  | cons p rest ih =>
    obtain ⟨k0, v0⟩ := p
    by_cases h0 : k0 = k
    · subst h0; simp [dictGet?, dictRemove, Ne.symm h]
    · simp [dictGet?, dictRemove, h0, ih]

theorem dictGet?_map {α β : Type} (f : α → β) (d : List (String × α))
    (k : String) :
    dictGet? (d.map (fun p => (p.1, f p.2))) k = (dictGet? d k).map f := by
  induction d with
  | nil => rfl
  | cons p rest ih =>
    by_cases h : p.1 = k <;> simp [dictGet?, h, ih]

theorem dictGet?_some_mem {α : Type} {d : List (String × α)} {k : String}
    {v : α} (h : dictGet? d k = some v) : k ∈ d.map (fun p => p.1) := by
  induction d with
  | nil => simp [dictGet?] at h
  | cons p rest ih =>
    by_cases h0 : p.1 = k
    · simp [h0]
    · simp only [dictGet?, if_neg h0] at h
      simp [ih h]

theorem dictGet?_insert_fold (name : String) (cmds : List String)
    (d : List (String × String)) (k : String) :
    dictGet? (cmds.foldl (fun c cmd => dictInsert c cmd name) d) k =
      if k ∈ cmds then some name else dictGet? d k := by
  induction cmds generalizing d with
  | nil => simp
  | cons c cs ih =>
    simp only [List.foldl_cons, ih, dictGet?_insert]
    by_cases h1 : k ∈ cs
    · simp [h1]
    · by_cases h2 : c = k
      · simp [h1, h2]
      · simp [h1, h2, Ne.symm h2]

theorem get_commands_aux (l : List (String × List String)) (k : String) :
    ∀ d, dictGet? (l.foldl
        (fun commands p => p.2.foldl (fun c cmd => dictInsert c cmd p.1) commands)
        d) k =
      (lastOwner l k).or (dictGet? d k) := by
  induction l with
  | nil => intro d; simp [lastOwner, Option.or]
  | cons p rest ih =>
    intro d
    simp only [List.foldl_cons, ih, lastOwner]
    cases h : lastOwner rest k with
    | some n => simp [Option.or]
    | none =>
      simp only [Option.or, dictGet?_insert_fold]
      by_cases hm : k ∈ p.2 <;> simp [hm]

theorem get_commands_lastOwner (l : List (String × List String)) (k : String) :
    dictGet? (get_commands l) k = lastOwner l k := by
  have h := get_commands_aux l k []
  rw [get_commands, h]
  cases lastOwner l k <;> simp [Option.or, dictGet?]

/-! Lemmas describing the component operations. -/

theorem set_property_raised {sem : ExecSem} {st : CLIState}
    {pc p n v : String} {obj : Obj} {pspec : PptySpec}
    (h1 : dictGet? st.objects n = some obj)
    (h2 : dictGet? st.property_commands pc = some p)
    (h3 : dictGet? st.properties p = some pspec)
    (h4 : (sem p n v st.objects).raised = true) :
    set_property sem st pc n v =
      some ({ st with objects := (sem p n v st.objects).objects },
        sq ++ v ++ sq ++ " not a valid " ++ pspec.repr ++
        " (" ++ p ++ ")") := by
  simp [set_property, h1, h2, h3, h4]

theorem set_property_atomic_fail {accept : String → String → String → Option Int}
    {st : CLIState} {pc p n v : String} {obj : Obj} {pspec : PptySpec}
    (h1 : dictGet? st.objects n = some obj)
    (h2 : dictGet? st.property_commands pc = some p)
    (h3 : dictGet? st.properties p = some pspec)
    (h4 : accept p n v = none) :
    set_property (atomicExec accept) st pc n v =
      some (st, sq ++ v ++ sq ++ " not a valid " ++ pspec.repr ++
        " (" ++ p ++ ")") := by
  simp [set_property, atomicExec, h1, h2, h3, h4]

theorem set_property_atomic_ok {accept : String → String → String → Option Int}
    {st : CLIState} {pc p n v : String} {obj : Obj} {pspec : PptySpec} {w : Int}
    (h1 : dictGet? st.objects n = some obj)
    (h2 : dictGet? st.property_commands pc = some p)
    (h3 : dictGet? st.properties p = some pspec)
    (h4 : accept p n v = some w) :
    set_property (atomicExec accept) st pc n v =
      some (setObjState st n (setAttr obj p w),
        "New " ++ pspec.repr ++ " for " ++ n ++ ": " ++ v) := by
  simp [set_property, atomicExec, setObjState, h1, h2, h3, h4]

theorem readAll_none {st : CLIState} {pc n : String} {names : List String}
    (hmem : n ∈ names) (hfail : get_property st pc n = none) :
    readAll st pc names = none := by
  induction names with
  | nil => simp at hmem
  | cons m ms ih =>
    rcases List.mem_cons.mp hmem with rfl | hm
    · simp [readAll, hfail]
    · cases hg : get_property st pc m with
      | none => simp [readAll, hg]
      | some v => simp [readAll, hg, ih hm]

theorem readAll_map {st : CLIState} {pc : String} {f : String → Int}
    {names : List String}
    (h : ∀ n ∈ names, get_property st pc n = some (f n)) :
    readAll st pc names = some (names.map (fun n =>
      ljustDash n (st.max_name_length + 3) ++ toString (f n))) := by
  induction names with
  | nil => rfl
  | cons m ms ih =>
    have hm := h m (by simp)
    have hms : ∀ n ∈ ms, get_property st pc n = some (f n) :=
      fun n hn => h n (List.mem_cons_of_mem m hn)
    simp [readAll, hm, ih hms]

theorem dispatchLine_stop {sem : ExecSem} {st : CLIState} {line : String}
    (h : line ∈ st.stop_commands) :
    dispatchLine sem st line =
      DispatchResult.ok (stopState st) ["Stopping recording ..."]
        Outcome.stopped := by
  simp [dispatchLine, h]

theorem dispatchLine_event {sem : ExecSem} {st : CLIState} {line en : String}
    {d : EventData}
    (h0 : line ∉ st.stop_commands)
    (h1 : dictGet? st.event_commands line = some en)
    (h2 : dictGet? st.events en = some d) :
    dispatchLine sem st line =
      DispatchResult.ok (eventSet st en d)
        [pyCapitalize en ++ " event requested"]
        (Outcome.eventTriggered en) := by
  simp [dispatchLine, h0, h1, h2]

theorem dispatchLine_properties {sem : ExecSem} {st : CLIState} {line : String}
    (h0 : line ∉ st.stop_commands)
    (h1 : dictGet? st.event_commands line = none) :
    dispatchLine sem st line =
      propertyLoop sem st line (st.property_commands.map (fun p => p.1)) := by
  simp [dispatchLine, h0, h1]

theorem stopState_stop_signal (st : CLIState) :
    (stopState st).stop_signal = true := rfl

theorem run_stop_head {sem : ExecSem} {st : CLIState} {line : String}
    (rest : List String)
    (hsig : st.stop_signal = false) (h : line ∈ st.stop_commands) :
    run sem st (line :: rest) =
      RunResult.finished (stopState st)
        [prompt st, "Stopping recording ..."] rest := by
  have h2 : run sem (stopState st) rest =
      RunResult.finished (stopState st) [] rest := by
    rw [run.eq_def, stopState_stop_signal]
    simp
  rw [run.eq_def, hsig]
  simp only [Bool.false_eq_true, if_false]
  rw [dispatchLine_stop h]
  simp [h2]

theorem run_crash_head {sem : ExecSem} {st st1 : CLIState} {line : String}
    {out rest : List String}
    (hsig : st.stop_signal = false)
    (h : dispatchLine sem st line = DispatchResult.crash st1 out) :
    run sem st (line :: rest) =
      RunResult.crashed st1 (prompt st :: out) rest := by
  rw [run.eq_def, hsig]
  simp only [Bool.false_eq_true, if_false]
  rw [h]

theorem propertyLoop_inquired {sem : ExecSem} {st : CLIState} {cmd : String} :
    ∀ {keys : List String} {st1 : CLIState} {out : List String} {pc : String},
    propertyLoop sem st cmd keys =
      DispatchResult.ok st1 out (Outcome.inquired pc) →
    st1 = st := by
  intro keys
  induction keys with
  | nil =>
    intro st1 out pc h
    simp [propertyLoop] at h
  | cons k ks ih =>
    intro st1 out pc h
    simp only [propertyLoop] at h
    by_cases h1 : cmd = k
    · rw [if_pos h1] at h
      cases hp : print_properties st k with
      | none => rw [hp] at h; simp at h
      | some m =>
        rw [hp] at h
        injection h with ha hb hc
        exact ha.symm
    · rw [if_neg h1] at h
      by_cases h2 : strTake cmd (k.length + 1) = k ++ " "
      · rw [if_pos h2] at h
        rcases hs : setAll sem k (strDrop cmd (k.length + 1))
            (st.objects.map fun p => p.1) st with ⟨st', msgs, c⟩
        rw [hs] at h
        cases c <;> simp at h
      · rw [if_neg h2] at h
        cases hf : findTarget cmd k (st.objects.map fun p => p.1) with
        | some n =>
          cases hsp : set_property sem st k n
              (strDrop cmd ((k ++ "-" ++ n).length + 1)) with
          | none =>
            simp only [hf, hsp] at h
            simp at h
          | some r =>
            obtain ⟨st', msg⟩ := r
            simp only [hf, hsp] at h
            simp at h
        | none =>
          simp only [hf] at h
          exact ih h


/-! Concrete fixtures (configurations reachable through `init`, checked
by evaluation) used by witnesses and counterexamples. -/

/-- Conversion behaviour of the fixtures' plain value texts: the texts
`5` and `9` convert for every object except `B`, which rejects every
assignment; every other text raises. -/
def exAccept : String → String → String → Option Int :=
  fun _ object_name v =>
    if object_name = "B" then none
    else if v = "5" then some 5 else if v = "9" then some 9 else none

/-- Exec semantics of the fixtures: benign single-expression value
texts governed by `exAccept`. -/
def exSem : ExecSem := atomicExec exAccept

/-- Modelled exec of the malicious operator value text `5; obj.check`:
the spliced statement becomes `obj.{ppty} = 5; obj.check`, so the first
statement assigns 5 to the target's attribute and the second reads
`obj.check`, raising `AttributeError` for targets lacking a `check`
attribute — after the assignment has already happened. -/
def malSem : ExecSem :=
  fun ppty object_name _value objects =>
    match dictGet? objects object_name with
    | none => { objects := objects, raised := true }
    | some obj =>
      { objects := dictInsert objects object_name (setAttr obj ppty 5),
        raised := (dictGet? obj.attrs "check").isNone }

/-- A pressure-like object with an `interval` attribute and an
`on_stop` method. -/
def oP : Obj :=
  { attrs := [("interval", 1)], hasOnStop := true, stopCount := 0 }

/-- A temperature-like object with an `interval` attribute, no
`on_stop`. -/
def oT : Obj :=
  { attrs := [("interval", 2)], hasOnStop := false, stopCount := 0 }

/-- An object lacking the `interval` attribute: reading it raises. -/
def oBad : Obj :=
  { attrs := [], hasOnStop := false, stopCount := 0 }

/-- An object with both an `interval` and a `check` attribute. -/
def oCheck : Obj :=
  { attrs := [("interval", 1), ("check", 0)], hasOnStop := false,
    stopCount := 0 }

/-- An object with an `interval` attribute but no `check` attribute. -/
def oNoCheck : Obj :=
  { attrs := [("interval", 2)], hasOnStop := false, stopCount := 0 }

/-- Properties dict of the fixtures: one property `interval` with the
single command `dt`. -/
def exProps : List (String × PptySpec) :=
  [("interval", { repr := "dt (s)", commands := ["dt"] })]

/-- Events dict of the fixtures, including a host-supplied `stop`
entry. -/
def exEventsWithStop : List (String × EventData) :=
  [("graph", { signal := false, commands := ["g", "graph"] }),
   ("stop", { signal := false, commands := ["q", "quit"] })]

/-- The state `init [("P", oP), ("T", oT)] exProps exEventsWithStop`
produces. -/
def exState : CLIState :=
  { objects := [("P", oP), ("T", oT)],
    properties := exProps,
    events := [("graph", { signal := false, commands := ["g", "graph"] })],
    stop_signal := false,
    stop_commands := ["q", "quit"],
    event_commands := [("g", "graph"), ("graph", "graph")],
    property_commands := [("dt", "interval")],
    max_name_length := 1 }

/-- `exState` with an attribute-less object `B` inserted between `P`
and `T`. -/
def exStateBad : CLIState :=
  { exState with objects := [("P", oP), ("B", oBad), ("T", oT)] }

/-- `exState` with the assignment-rejecting object `B` in second
position. -/
def exStatePB : CLIState :=
  { exState with objects := [("P", oP), ("B", oBad)] }

/-- `exState` with the `check`-bearing object `P` and the `check`-less
object `B`. -/
def exStateChk : CLIState :=
  { exState with objects := [("P", oCheck), ("B", oNoCheck)] }

/-- The state `init [("P", oP)] exProps exEventsWithStop` produces. -/
def exInitSt : CLIState :=
  { objects := [("P", oP)],
    properties := exProps,
    events := [("graph", { signal := false, commands := ["g", "graph"] })],
    stop_signal := false,
    stop_commands := ["q", "quit"],
    event_commands := [("g", "graph"), ("graph", "graph")],
    property_commands := [("dt", "interval")],
    max_name_length := 1 }

/-- Properties dict with an overlapping token: both `interval` and
`avg` list the command `x`, and the command `dt` collides with the
supplied stop token. -/
def dupProps : List (String × PptySpec) :=
  [("interval", { repr := "dt (s)", commands := ["dt", "x"] }),
   ("avg", { repr := "Avg", commands := ["x"] })]

/-- Events dict whose `stop` entry's token `dt` collides with a
property token of `dupProps`. -/
def dupEvents : List (String × EventData) :=
  [("stop", { signal := false, commands := ["dt"] })]

/-! Claims. -/

/-- C1 counterexample: construction does NOT fail on overlapping
command tokens. With `dupProps` (tokens `dt`, `x`, `x`) and `dupEvents`
(stop token `dt`, identical to a property token), `__init__` succeeds,
silently maps the duplicated token `x` to the later spec `avg`, and
keeps `dt` both as a property command and as a stop token. -/
theorem C1_counterexample :
    (init [("P", oP)] dupProps dupEvents).isSome = true
    ∧ (init [("P", oP)] dupProps dupEvents).map
        (fun st => (dictGet? st.property_commands "x",
                    dictGet? st.property_commands "dt",
                    st.stop_commands))
      = some (some "avg", some "interval", ["dt"]) :=
  ⟨rfl, rfl⟩

/-- C1 (amended): building the command lookup table performs no
uniqueness validation at all. `_get_commands` is total and, for every
token, keeps the mapping of the last spec in supply order containing
that token (`lastOwner`), silently overwriting earlier ones; and
construction succeeds for every non-empty objects dict, whatever
overlaps the property, event and stop token sets have (including a stop
token textually identical to a property token, cf. the
counterexample). -/
theorem C1_no_validation_last_wins :
    (∀ input_data cmd,
      dictGet? (get_commands input_data) cmd = lastOwner input_data cmd)
    ∧ (∀ objects properties events, objects ≠ [] →
        (init objects properties events).isSome = true) := by
  constructor
  · exact get_commands_lastOwner
  · intro objects properties events hne
    cases objects with
    | nil => exact absurd rfl hne
    | cons a rest =>
      cases h : dictGet? events "stop" <;> simp [init, h, initCore]

/-- C1 witness: the amended theorem applied to a concrete overlapping
configuration. -/
theorem C1_witness :
    dictGet? (get_commands [("a", ["x"]), ("b", ["x"])]) "x" =
      lastOwner [("a", ["x"]), ("b", ["x"])] "x"
    ∧ (init [("P", oP)] dupProps dupEvents).isSome = true :=
  ⟨C1_no_validation_last_wins.1 [("a", ["x"]), ("b", ["x"])] "x",
   C1_no_validation_last_wins.2 [("P", oP)] dupProps dupEvents (by simp)⟩

/-- C9: construction fails (the empty `max` on line 104 raises
`ValueError`) exactly when the managed-objects dict is empty; with at
least one managed object, and the structurally well-formed property and
event specs the embedding enforces, construction completes. -/
theorem C9_empty_objects_fail (objects : List (String × Obj))
    (properties : List (String × PptySpec))
    (events : List (String × EventData)) :
    init objects properties events = none ↔ objects = [] := by
  cases objects with
  | nil => cases h : dictGet? events "stop" <;> simp [init, h, initCore]
  | cons a rest => cases h : dictGet? events "stop" <;> simp [init, h, initCore]

/-- C10: when the host events dict carries a `stop` entry `d`,
construction pops it: the state's events dict is the host dict with
that entry removed (all other entries unchanged), `d`'s signal and
tokens become the stop signal and stop tokens, the event-command table
is built from the remaining entries only, and each of `d`'s tokens
dispatches as a stop command (never as an ordinary event trigger),
whatever the exec semantics. -/
theorem C10_stop_entry_popped (objects : List (String × Obj))
    (properties : List (String × PptySpec))
    (events : List (String × EventData)) (d : EventData) (st : CLIState)
    (hd : dictGet? events "stop" = some d)
    (hinit : init objects properties events = some st) :
    st.events = dictRemove events "stop"
    ∧ st.stop_signal = d.signal
    ∧ st.stop_commands = d.commands
    ∧ st.event_commands =
        get_commands ((dictRemove events "stop").map (fun p => (p.1, p.2.commands)))
    ∧ (∀ k, k ≠ "stop" → dictGet? st.events k = dictGet? events k)
    ∧ (∀ (sem : ExecSem), ∀ t ∈ d.commands,
        dispatchLine sem st t =
          DispatchResult.ok (stopState st) ["Stopping recording ..."]
            Outcome.stopped) := by
  rw [init, hd] at hinit
  cases objects with
  | nil => simp [initCore] at hinit
  | cons a rest =>
    simp only [initCore, Option.some.injEq] at hinit
    subst hinit
    refine ⟨rfl, rfl, rfl, rfl, ?_, ?_⟩
    · intro k hk
      exact dictGet?_remove_ne events "stop" k hk
    · intro sem t ht
      exact dispatchLine_stop ht

/-- C10 witness: the theorem applied to the concrete configuration
whose events dict is `exEventsWithStop`. -/
theorem C10_witness :
    exInitSt.events = dictRemove exEventsWithStop "stop"
    ∧ exInitSt.stop_signal = (EventData.mk false ["q", "quit"]).signal
    ∧ exInitSt.stop_commands = (EventData.mk false ["q", "quit"]).commands
    ∧ exInitSt.event_commands =
        get_commands ((dictRemove exEventsWithStop "stop").map
          (fun p => (p.1, p.2.commands)))
    ∧ (∀ k, k ≠ "stop" →
        dictGet? exInitSt.events k = dictGet? exEventsWithStop k)
    ∧ (∀ (sem : ExecSem), ∀ t ∈ (EventData.mk false ["q", "quit"]).commands,
        dispatchLine sem exInitSt t =
          DispatchResult.ok (stopState exInitSt) ["Stopping recording ..."]
            Outcome.stopped) :=
  C10_stop_entry_popped [("P", oP)] exProps exEventsWithStop
    (EventData.mk false ["q", "quit"]) exInitSt rfl rfl

/-- C5 counterexample: setting is NOT all-or-nothing. The exec of the
multi-statement operator value text `5; obj.check` against the
`check`-less object `B` assigns 5 and then raises; `_set_property`
catches the exception and reports a conversion failure, yet `B`'s
`interval` value has changed from 2 to 5. -/
theorem C5_counterexample :
    set_property malSem exStateChk "dt" "B" "5; obj.check" =
      some ({ exStateChk with objects :=
                [("P", oCheck), ("B", setAttr oNoCheck "interval" 5)] },
        sq ++ "5; obj.check" ++ sq ++ " not a valid dt (s) (interval)")
    ∧ dictGet? oNoCheck.attrs "interval" = some 2
    ∧ dictGet? (setAttr oNoCheck "interval" 5).attrs "interval" = some 5 :=
  ⟨by decide, by decide, by decide⟩

/-- C5 (amended): when the conversion-and-assignment exec raises, the
failure is caught and reported as the printed conversion-failure
message — it is never raised out of the dispatch — but the attempt is
not all-or-nothing: the state keeps every mutation the exec performed
before raising. The object's existing property value is guaranteed
unchanged only under an atomic exec semantics (a benign
single-expression value text), where a raise has no side effects. -/
theorem C5_failure_reported_not_atomic (sem : ExecSem) (st : CLIState)
    (pc p n v : String) (obj : Obj) (pspec : PptySpec)
    (h1 : dictGet? st.objects n = some obj)
    (h2 : dictGet? st.property_commands pc = some p)
    (h3 : dictGet? st.properties p = some pspec)
    (h4 : (sem p n v st.objects).raised = true) :
    set_property sem st pc n v =
      some ({ st with objects := (sem p n v st.objects).objects },
        sq ++ v ++ sq ++ " not a valid " ++ pspec.repr ++ " (" ++ p ++ ")")
    ∧ (∀ accept, sem = atomicExec accept →
        set_property sem st pc n v =
          some (st, sq ++ v ++ sq ++ " not a valid " ++ pspec.repr ++
            " (" ++ p ++ ")")) := by
  refine ⟨set_property_raised h1 h2 h3 h4, ?_⟩
  intro accept hsem
  subst hsem
  cases ha : accept p n v with
  | none => exact set_property_atomic_fail h1 h2 h3 ha
  | some w =>
    exfalso
    simp [atomicExec, ha, h1] at h4

/-- C5 witness: the amended theorem at the fixture: the failing plain
text `xyz` is reported and, the fixture semantics being atomic, leaves
the state exactly unchanged. -/
theorem C5_witness :
    set_property exSem exState "dt" "P" "xyz" =
      some ({ exState with objects :=
          (exSem "interval" "P" "xyz" exState.objects).objects },
        sq ++ "xyz" ++ sq ++ " not a valid " ++ "dt (s)" ++
          " (" ++ "interval" ++ ")")
    ∧ set_property exSem exState "dt" "P" "xyz" =
        some (exState, sq ++ "xyz" ++ sq ++ " not a valid " ++ "dt (s)" ++
          " (" ++ "interval" ++ ")") :=
  ⟨(C5_failure_reported_not_atomic exSem exState "dt" "interval" "P" "xyz" oP
      (PptySpec.mk "dt (s)" ["dt"]) rfl rfl rfl rfl).1,
   (C5_failure_reported_not_atomic exSem exState "dt" "interval" "P" "xyz" oP
      (PptySpec.mk "dt (s)" ["dt"]) rfl rfl rfl rfl).2 exAccept rfl⟩

/-- C6: classification precedence is stop check, then event check, then
the property loop, for every exec semantics: a line that is a stop
token dispatches as `stopped` before any other interpretation; a line
that is not a stop token but is exactly an event token dispatches that
event; any other line falls through to the property checks — so an
event token followed by a space and trailing text is never an event
trigger, and with no matching property form (concretely, input `g 1`
in the fixture where `g` is an event token) ends as `Unknown
Command`. -/
theorem C6_precedence :
    (∀ (sem : ExecSem) (st : CLIState) (line : String),
      line ∈ st.stop_commands →
      dispatchLine sem st line =
        DispatchResult.ok (stopState st) ["Stopping recording ..."]
          Outcome.stopped)
    ∧ (∀ (sem : ExecSem) (st : CLIState) (line en : String) (d : EventData),
        line ∉ st.stop_commands →
        dictGet? st.event_commands line = some en →
        dictGet? st.events en = some d →
        dispatchLine sem st line =
          DispatchResult.ok (eventSet st en d)
            [pyCapitalize en ++ " event requested"]
            (Outcome.eventTriggered en))
    ∧ (∀ (sem : ExecSem) (st : CLIState) (line : String),
        line ∉ st.stop_commands →
        dictGet? st.event_commands line = none →
        dispatchLine sem st line =
          propertyLoop sem st line (st.property_commands.map (fun p => p.1)))
    ∧ dictGet? exState.event_commands "g" = some "graph"
    ∧ dispatchLine exSem exState "g 1" =
        DispatchResult.ok exState ["Unknown Command. "] Outcome.unrecognized := by
  refine ⟨?_, ?_, ?_, rfl, rfl⟩
  · intro sem st line h
    exact dispatchLine_stop h
  · intro sem st line en d h0 h1 h2
    exact dispatchLine_event h0 h1 h2
  · intro sem st line h0 h1
    exact dispatchLine_properties h0 h1

/-- C6 witness: each general conjunct of the theorem applied to the
fixture. -/
theorem C6_witness :
    dispatchLine exSem exState "q" =
      DispatchResult.ok (stopState exState) ["Stopping recording ..."]
        Outcome.stopped
    ∧ dispatchLine exSem exState "g" =
        DispatchResult.ok
          (eventSet exState "graph" (EventData.mk false ["g", "graph"]))
          ["Graph event requested"] (Outcome.eventTriggered "graph")
    ∧ dispatchLine exSem exState "dt 5" =
        propertyLoop exSem exState "dt 5"
          (exState.property_commands.map (fun p => p.1)) :=
  ⟨C6_precedence.1 exSem exState "q" (by decide),
   C6_precedence.2.1 exSem exState "g" "graph" (EventData.mk false ["g", "graph"])
     (by decide) rfl rfl,
   C6_precedence.2.2.1 exSem exState "dt 5" (by decide) rfl⟩

/-- C7: dispatching a stop token (with the loop still running) calls
each managed object's optional stop hook exactly once if the object
defines one and not at all otherwise — objects lacking the hook are
skipped without an error — in the supplied object order, sets the stop
signal, and the loop then terminates: the remaining input lines are
returned unread. Holds for every exec semantics. -/
theorem C7_stop_hooks_then_terminal (sem : ExecSem) (st : CLIState)
    (line : String) (rest : List String)
    (hsig : st.stop_signal = false) (hmem : line ∈ st.stop_commands) :
    run sem st (line :: rest) =
      RunResult.finished (stopState st)
        [prompt st, "Stopping recording ..."] rest
    ∧ (stopState st).objects = st.objects.map (fun q =>
        (q.1, if q.2.hasOnStop
              then { q.2 with stopCount := q.2.stopCount + 1 }
              else q.2))
    ∧ (stopState st).stop_signal = true :=
  ⟨run_stop_head rest hsig hmem, rfl, rfl⟩

/-- C7 witness: the theorem at the fixture (`P` has a stop hook, `T`
has none). -/
theorem C7_witness :
    run exSem exState ["q", "dt"] =
      RunResult.finished (stopState exState)
        [prompt exState, "Stopping recording ..."] ["dt"]
    ∧ (stopState exState).objects = exState.objects.map (fun q =>
        (q.1, if q.2.hasOnStop
              then { q.2 with stopCount := q.2.stopCount + 1 }
              else q.2))
    ∧ (stopState exState).stop_signal = true :=
  C7_stop_hooks_then_terminal exSem exState "q" ["dt"] rfl (by decide)

/-- C8: an inquire dispatch is read-only, for every exec semantics.
Whenever a line is handled by the inquire branch of the property loop
(the line equals the property token reached in table order), the
dispatch returns the state unchanged: no object's property value is
mutated. -/
theorem C8_inquire_readonly (sem : ExecSem) (st : CLIState) (line : String)
    (st1 : CLIState) (out : List String) (pc : String)
    (h : dispatchLine sem st line =
      DispatchResult.ok st1 out (Outcome.inquired pc)) :
    st1 = st := by
  rw [dispatchLine] at h
  by_cases hs : line ∈ st.stop_commands
  · rw [if_pos hs] at h
    simp at h
  · rw [if_neg hs] at h
    cases he : dictGet? st.event_commands line with
    | some en =>
      simp only [he] at h
      cases hd : dictGet? st.events en with
      | none => simp only [hd] at h; simp at h
      | some d => simp only [hd] at h; simp at h
    | none =>
      simp only [he] at h
      exact propertyLoop_inquired h

/-- C8 witness: the theorem applied to the fixture's inquire dispatch
of `dt`. -/
theorem C8_witness : exState = exState :=
  C8_inquire_readonly exSem exState "dt" exState ["dt (s)\nP---1\nT---2"]
    "dt" rfl

/-- C2 counterexample: during the inquire dispatch of `dt` in a state
whose second object `B` lacks the inquired attribute, the read failure
for `B` raises out of the dispatch (`crash`) and terminates the
interactive loop: the following input line `dt 5` is left unread. -/
theorem C2_counterexample :
    dispatchLine exSem exStateBad "dt" = DispatchResult.crash exStateBad []
    ∧ run exSem exStateBad ["dt", "dt 5"] =
        RunResult.crashed exStateBad
          ["Type command (to stop, type q or quit): "] ["dt 5"] :=
  ⟨rfl, rfl⟩

/-- C2 (amended): during an inquire dispatch the objects are read in
supplied order, but the read outcomes are not isolated: as soon as one
managed object's read raises (an unknown attribute on that object), the
inquiry is aborted with nothing printed (`_print_properties` has no
try/except), the exception escapes the dispatch, and the interactive
loop terminates with the remaining input lines unread. Holds for every
exec semantics, reads not involving the exec. -/
theorem C2_read_failure_propagates (sem : ExecSem) (st : CLIState)
    (pc p n0 : String) (obj0 : Obj) (rest : List String)
    (hsig : st.stop_signal = false)
    (hstop : pc ∉ st.stop_commands)
    (hev : dictGet? st.event_commands pc = none)
    (hpcs : st.property_commands = [(pc, p)])
    (hmem : dictGet? st.objects n0 = some obj0)
    (hfail : dictGet? obj0.attrs p = none) :
    print_properties st pc = none
    ∧ dispatchLine sem st pc = DispatchResult.crash st []
    ∧ run sem st (pc :: rest) = RunResult.crashed st [prompt st] rest := by
  have hpp : dictGet? st.property_commands pc = some p := by
    rw [hpcs]; simp [dictGet?]
  have hget : get_property st pc n0 = none := by
    simp [get_property, hmem, hpp, hfail]
  have hnames : n0 ∈ st.objects.map (fun p => p.1) := dictGet?_some_mem hmem
  have hra : readAll st pc (st.objects.map (fun p => p.1)) = none :=
    readAll_none hnames hget
  have hprint : print_properties st pc = none := by
    simp only [print_properties, hpp]
    cases hprop : dictGet? st.properties p with
    | none => rfl
    | some pspec => simp only [hra]
  have hdisp : dispatchLine sem st pc = DispatchResult.crash st [] := by
    rw [dispatchLine_properties hstop hev, hpcs]
    simp [propertyLoop, hprint]
  exact ⟨hprint, hdisp, run_crash_head hsig hdisp⟩

/-- C2 witness: the amended theorem at the fixture whose object `B`
lacks the `interval` attribute. -/
theorem C2_witness :
    print_properties exStateBad "dt" = none
    ∧ dispatchLine exSem exStateBad "dt" = DispatchResult.crash exStateBad []
    ∧ run exSem exStateBad ("dt" :: ["x"]) =
        RunResult.crashed exStateBad [prompt exStateBad] ["x"] :=
  C2_read_failure_propagates exSem exStateBad "dt" "interval" "B" oBad ["x"]
    rfl (by decide) rfl rfl rfl rfl

/-- C3 counterexample: the input line `dt-P-9` starts with the specific
command `dt-P` but NOT with `dt-P` followed by a space; the code still
classifies it as a targeted set for object `P` and applies the text
after position 5 (here `9`) to `P`. -/
theorem C3_counterexample :
    strTake "dt-P-9" ("dt-P".length) = "dt-P"
    ∧ strTake "dt-P-9" ("dt-P ".length) ≠ "dt-P "
    ∧ dispatchLine exSem exState "dt-P-9" =
        DispatchResult.ok (setObjState exState "P" (setAttr oP "interval" 9))
          ["New dt (s) for P: 9"] (Outcome.targetedSet "dt" "P") :=
  ⟨by decide, by decide, by decide⟩

/-- C3 (amended): the dispatcher classifies a line as a targeted set
for object `n` exactly when the line's first `len(token-n)` characters
equal the specific command — no following space is required — and the
value text passed on is the remainder of the line after skipping one
further character, whatever it is. The dispatcher then makes the set
attempt for object `n` only (a single `_set_property` call targeting
`n`); under an atomic exec semantics that attempt mutates only `n`,
and the other managed object is unchanged (the exec of a
multi-statement value text can itself reach sibling objects). -/
theorem C3_targeted_no_space (sem : ExecSem) (st : CLIState)
    (a b pc p line v : String) (oA oB : Obj) (pspec : PptySpec)
    (hab : a ≠ b)
    (hobjs : st.objects = [(a, oA), (b, oB)])
    (hpc : st.property_commands = [(pc, p)])
    (hps : dictGet? st.properties p = some pspec)
    (hstop : line ∉ st.stop_commands)
    (hev : dictGet? st.event_commands line = none)
    (hne1 : line ≠ pc)
    (hne2 : strTake line (pc.length + 1) ≠ pc ++ " ")
    (hmatch : strTake line ((pc ++ "-" ++ a).length) = pc ++ "-" ++ a)
    (hval : strDrop line ((pc ++ "-" ++ a).length + 1) = v) :
    (∀ st1 msg, set_property sem st pc a v = some (st1, msg) →
      dispatchLine sem st line =
        DispatchResult.ok st1 [msg] (Outcome.targetedSet pc a))
    ∧ (∀ accept w, sem = atomicExec accept → accept p a v = some w →
        dispatchLine sem st line =
          DispatchResult.ok
            ({ st with objects := [(a, setAttr oA p w), (b, oB)] })
            ["New " ++ pspec.repr ++ " for " ++ a ++ ": " ++ v]
            (Outcome.targetedSet pc a)
          ∧ dictGet? [(a, setAttr oA p w), (b, oB)] b = some oB) := by
  have hroute : ∀ st1 msg, set_property sem st pc a v = some (st1, msg) →
      dispatchLine sem st line =
        DispatchResult.ok st1 [msg] (Outcome.targetedSet pc a) := by
    intro st1 msg e
    rw [dispatchLine_properties hstop hev, hpc]
    simp only [List.map_cons, List.map_nil]
    simp only [propertyLoop, if_neg hne1, if_neg hne2]
    rw [hobjs]
    simp only [List.map_cons, List.map_nil, findTarget, hmatch, if_true]
    rw [hval, e]
  refine ⟨hroute, ?_⟩
  intro accept w hsem ha
  subst hsem
  have hgetA : dictGet? st.objects a = some oA := by
    rw [hobjs]; simp [dictGet?]
  have hpp : dictGet? st.property_commands pc = some p := by
    rw [hpc]; simp [dictGet?]
  have e := set_property_atomic_ok hgetA hpp hps ha
  have hst1 : setObjState st a (setAttr oA p w) =
      { st with objects := [(a, setAttr oA p w), (b, oB)] } := by
    simp [setObjState, hobjs, dictInsert]
  rw [hst1] at e
  exact ⟨hroute _ _ e, by simp [dictGet?, hab]⟩

/-- C3 witness: the atomic conjunct of the amended theorem at the
fixture, input `dt-P-9`. -/
theorem C3_witness :
    dispatchLine exSem exState "dt-P-9" =
      DispatchResult.ok
        ({ exState with objects := [("P", setAttr oP "interval" 9), ("T", oT)] })
        ["New " ++ "dt (s)" ++ " for " ++ "P" ++ ": " ++ "9"]
        (Outcome.targetedSet "dt" "P")
    ∧ dictGet? [("P", setAttr oP "interval" 9), ("T", oT)] "T" = some oT :=
  (C3_targeted_no_space exSem exState "P" "T" "dt" "interval" "dt-P-9" "9"
    oP oT (PptySpec.mk "dt (s)" ["dt"]) (by decide) rfl rfl rfl (by decide)
    rfl (by decide) (by decide) (by decide) (by decide)).2 exAccept 9 rfl rfl

/-- C4 counterexample: the per-object outcomes of a bulk set do not
guarantee the failing object unchanged. Bulk-dispatching the malicious
value text `5; obj.check` over `P` (has `check`) and `B` (lacks it):
`P`'s attempt succeeds and `B`'s attempt is reported as a conversion
failure — the claim's premise — yet `B` has been mutated by its own
failing exec (its `interval` changed from 2 to 5). -/
theorem C4_counterexample :
    dispatchLine malSem exStateChk ("dt" ++ " " ++ "5; obj.check") =
      DispatchResult.ok
        ({ exStateChk with objects :=
            [("P", setAttr oCheck "interval" 5),
             ("B", setAttr oNoCheck "interval" 5)] })
        ["New dt (s) for P: 5; obj.check",
         sq ++ "5; obj.check" ++ sq ++ " not a valid dt (s) (interval)"]
        (Outcome.bulkSet "dt")
    ∧ dictGet? oNoCheck.attrs "interval" = some 2
    ∧ dictGet? (setAttr oNoCheck "interval" 5).attrs "interval" = some 5 :=
  ⟨by decide, by decide, by decide⟩

/-- C4 (amended): in a bulk set the dispatcher makes one set attempt
per managed object, in supplied order, threading the state between
attempts: a failure for one object neither aborts the other attempts
nor rolls anything back, and the per-object messages report each
attempt's outcome individually. That the failing object `b` is left
unchanged — and the successful object `a` updated to exactly the
converted value — additionally needs an atomic exec semantics (benign
single-expression value texts): a multi-statement value text can
mutate an object even though its attempt is reported as a conversion
failure (see the counterexample). -/
theorem C4_bulk_attempts_independent (sem : ExecSem) (st : CLIState)
    (a b pc p v : String) (oA oB : Obj) (pspec : PptySpec)
    (hab : a ≠ b)
    (hobjs : st.objects = [(a, oA), (b, oB)])
    (hpc : st.property_commands = [(pc, p)])
    (hps : dictGet? st.properties p = some pspec)
    (hstop : (pc ++ " " ++ v) ∉ st.stop_commands)
    (hev : dictGet? st.event_commands (pc ++ " " ++ v) = none) :
    (∀ st1 m1 st2 m2,
      set_property sem st pc a v = some (st1, m1) →
      set_property sem st1 pc b v = some (st2, m2) →
      dispatchLine sem st (pc ++ " " ++ v) =
        DispatchResult.ok st2 [m1, m2] (Outcome.bulkSet pc))
    ∧ (∀ accept w, sem = atomicExec accept →
        accept p a v = some w → accept p b v = none →
        dispatchLine sem st (pc ++ " " ++ v) =
          DispatchResult.ok
            ({ st with objects := [(a, setAttr oA p w), (b, oB)] })
            ["New " ++ pspec.repr ++ " for " ++ a ++ ": " ++ v,
             sq ++ v ++ sq ++ " not a valid " ++ pspec.repr ++
               " (" ++ p ++ ")"]
            (Outcome.bulkSet pc)
          ∧ dictGet? [(a, setAttr oA p w), (b, oB)] a = some (setAttr oA p w)
          ∧ dictGet? [(a, setAttr oA p w), (b, oB)] b = some oB
          ∧ dictGet? (setAttr oA p w).attrs p = some w) := by
  have hpart1 : ∀ st1 m1 st2 m2,
      set_property sem st pc a v = some (st1, m1) →
      set_property sem st1 pc b v = some (st2, m2) →
      dispatchLine sem st (pc ++ " " ++ v) =
        DispatchResult.ok st2 [m1, m2] (Outcome.bulkSet pc) := by
    intro st1 m1 st2 m2 e1 e2
    rw [dispatchLine_properties hstop hev, hpc]
    simp only [List.map_cons, List.map_nil]
    simp only [propertyLoop, if_neg (append_sep_ne pc v)]
    rw [if_pos (strTake_sep pc v), strDrop_sep, hobjs]
    simp only [List.map_cons, List.map_nil, setAll, e1, e2]
    simp
  refine ⟨hpart1, ?_⟩
  intro accept w hsem ha hb
  subst hsem
  have hgetA : dictGet? st.objects a = some oA := by
    rw [hobjs]; simp [dictGet?]
  have hpp : dictGet? st.property_commands pc = some p := by
    rw [hpc]; simp [dictGet?]
  have e1 := set_property_atomic_ok hgetA hpp hps ha
  have hst1 : setObjState st a (setAttr oA p w) =
      { st with objects := [(a, setAttr oA p w), (b, oB)] } := by
    simp [setObjState, hobjs, dictInsert]
  rw [hst1] at e1
  have hgetB : dictGet?
      ({ st with objects := [(a, setAttr oA p w), (b, oB)] } : CLIState).objects
      b = some oB := by
    simp [dictGet?, hab]
  have e2 := set_property_atomic_fail hgetB hpp hps hb
  refine ⟨hpart1 _ _ _ _ e1 e2, by simp [dictGet?], by simp [dictGet?, hab], ?_⟩
  simp [setAttr, dictGet?_insert]

/-- C4 witness: both conjuncts of the amended theorem at the fixture
(`P` accepts the plain text `5`, `B` rejects every assignment). -/
theorem C4_witness :
    dispatchLine exSem exStatePB ("dt" ++ " " ++ "5") =
      DispatchResult.ok
        ({ exStatePB with objects :=
            [("P", setAttr oP "interval" 5), ("B", oBad)] })
        ["New " ++ "dt (s)" ++ " for " ++ "P" ++ ": " ++ "5",
         sq ++ "5" ++ sq ++ " not a valid " ++ "dt (s)" ++
           " (" ++ "interval" ++ ")"]
        (Outcome.bulkSet "dt")
    ∧ dictGet? [("P", setAttr oP "interval" 5), ("B", oBad)] "P"
        = some (setAttr oP "interval" 5)
    ∧ dictGet? [("P", setAttr oP "interval" 5), ("B", oBad)] "B" = some oBad
    ∧ dictGet? (setAttr oP "interval" 5).attrs "interval" = some 5 :=
  (C4_bulk_attempts_independent exSem exStatePB "P" "B" "dt" "interval" "5"
    oP oBad (PptySpec.mk "dt (s)" ["dt"]) (by decide) rfl rfl rfl (by decide)
    rfl).2 exAccept 5 rfl rfl rfl

end Clyo
